/-
Verification of the clash-royale-analytics core against its specification.

Shallow embedding of the repository's Python source:
- `src/backend/data_scraper/src/clean.py` (normalizer: result derivation,
  duel round expansion),
- `src/backend/redis_service/redis_connection.py` (cache key construction),
- `src/backend/mongo/battles_read.py` and `src/backend/mongo/query_utils.py`
  (aggregation queries),
- `src/backend/data_scraper/src/main.py` (per-player retry loop, cycle),
- `src/backend/clash_royale_api/api_client.py` (maintenance detection),
- `src/backend/app/src/routers/players_details.py` (cached read path).

Machine integers do not occur (Python ints are unbounded); counts are `Nat`,
timestamps are modelled as seconds (`Nat`/`Int`), fractional quantities
(backoff seconds, win rates, leaked elixir) as `Rat`.  Python `dict.get`
misses are modelled with `Option`; raising code returns `Except`.
-/

import Mathlib

namespace CRA

/-! ### Data model

A card as it appears after normalization (`clean.py`), and as extracted into
the `deckCards` array by `extract_deck_cards_stage` (`query_utils.py`). -/

structure Card where
  id : Nat
  name : String
  level : Nat
  evolutionLevel : Nat
deriving DecidableEq, Repr

/-- A card as stored inside a canonical battle record.  `name`, `level` and
`evolutionLevel` may be absent in some logs; `extract_deck_cards_stage`
supplies the defaults via `$ifNull`. -/
structure StoredCard where
  id : Nat
  name : Option String
  level : Option Nat
  evolutionLevel : Option Nat
deriving DecidableEq, Repr

/-- One participant of a battle (one element of the `team` / `opponent`
arrays).  `crowns` and `elixirLeaked` may be absent (`dict.get` defaults
are applied at each use site, as in the source). -/
structure Participant where
  tag : String
  crowns : Option Nat
  cards : List StoredCard
  elixirLeaked : Option Rat
deriving DecidableEq, Repr

/-- The `team`/`opponent` part of a raw battle payload, as consumed by
`determine_game_result` in `clean.py` (at that point of the pipeline the
record has no `gameResult` yet). -/
structure BattlePayload where
  team : List Participant
  opponent : List Participant
deriving DecidableEq, Repr

/-! ### `determine_game_result` (clean.py, lines 161-187)

```
own_crowns = battle.get("team")[0].get("crowns", 0)
opponent_crowns = battle.get("opponent")[0].get("crowns", 0)
if own_crowns > opponent_crowns: return "Victory"
if own_crowns < opponent_crowns: return "Defeat"
return "Draw"
```

Indexing `[0]` into an empty list raises in Python, hence `Option`. -/

def determine_game_result (battle : BattlePayload) : Option String := do
  let t ← battle.team.head?
  let o ← battle.opponent.head?
  let own_crowns := t.crowns.getD 0
  let opponent_crowns := o.crowns.getD 0
  if own_crowns > opponent_crowns then
    pure "Victory"
  else if own_crowns < opponent_crowns then
    pure "Defeat"
  else
    pure "Draw"

/-- The maximum crown count across one side's participants (missing counts
read as 0).  This follows the spec's words, for comparison with the code. -/
def maxCrownsSpec (side : List Participant) : Nat :=
  (side.map (fun p => p.crowns.getD 0)).foldl max 0

/-- Result derivation as the spec words it: compare the maximum crown count
across the reference side's participants with the opponent side's maximum.
Written from the spec, not from the source, to be compared with
`determine_game_result`. -/
def gameResultSpecMax (battle : BattlePayload) : Option String := do
  let _ ← battle.team.head?
  let _ ← battle.opponent.head?
  let own := maxCrownsSpec battle.team
  let opp := maxCrownsSpec battle.opponent
  if own > opp then pure "Victory"
  else if own < opp then pure "Defeat"
  else pure "Draw"

/-- C1 (counterexample): `determine_game_result` does not compare the maximum
crown count across each side's participants.  With `team = [{crowns: 0},
{crowns: 3}]` and `opponent = [{crowns: 1}]` the side maxima are 3 vs 1, so
the claimed rule yields Victory, but the code compares only the first
participants (0 vs 1) and yields Defeat. -/
theorem determine_game_result_not_max_counterexample :
    determine_game_result
        ⟨[⟨"#P1", some 0, [], none⟩, ⟨"#P2", some 3, [], none⟩],
         [⟨"#O1", some 1, [], none⟩]⟩ = some "Defeat" ∧
    gameResultSpecMax
        ⟨[⟨"#P1", some 0, [], none⟩, ⟨"#P2", some 3, [], none⟩],
         [⟨"#O1", some 1, [], none⟩]⟩ = some "Victory" := by
  constructor <;> rfl

/-- C1 (amended): for payloads with non-empty team and opponent lists, the
derived gameResult compares the crown counts of the *first* participant of
each side (missing counts default to 0): strictly greater yields Victory,
strictly smaller Defeat, equal Draw.  This coincides with the spec's
max-crowns rule whenever the first participant of each side attains that
side's maximum crown count (in particular for single-participant sides). -/
theorem determine_game_result_first_participant (b : BattlePayload)
    (t o : Participant) (ts os : List Participant)
    (hteam : b.team = t :: ts) (hopp : b.opponent = o :: os) :
    determine_game_result b =
      some (if t.crowns.getD 0 > o.crowns.getD 0 then "Victory"
            else if t.crowns.getD 0 < o.crowns.getD 0 then "Defeat"
            else "Draw") ∧
    (t.crowns.getD 0 = maxCrownsSpec b.team →
     o.crowns.getD 0 = maxCrownsSpec b.opponent →
     determine_game_result b = gameResultSpecMax b) := by
  constructor
  · simp only [determine_game_result, hteam, hopp, List.head?, Option.pure_def,
      Option.bind_eq_bind, Option.some_bind]
    split_ifs <;> rfl
  · intro h1 h2
    rw [hteam] at h1
    rw [hopp] at h2
    simp only [determine_game_result, gameResultSpecMax, hteam, hopp, List.head?,
      Option.pure_def, Option.bind_eq_bind, Option.some_bind, ← h1, ← h2]

/-- C1 witness: the amended theorem applied at a concrete single-participant
battle (3 crowns vs 1 crown), where the result agrees with the spec's
max-crowns rule; evaluation confirms Victory. -/
theorem determine_game_result_first_participant_witness :
    determine_game_result
        ⟨[⟨"#P1", some 3, [], none⟩], [⟨"#O1", some 1, [], none⟩]⟩ =
      gameResultSpecMax
        ⟨[⟨"#P1", some 3, [], none⟩], [⟨"#O1", some 1, [], none⟩]⟩ ∧
    determine_game_result
        ⟨[⟨"#P1", some 3, [], none⟩], [⟨"#O1", some 1, [], none⟩]⟩ =
      some "Victory" :=
  ⟨(determine_game_result_first_participant _ _ _ _ _ rfl rfl).2
      (by decide) (by decide),
   by decide⟩

/-! ### Duel round expansion (`extract_duel_battles`, clean.py lines 257-330)

A raw duel payload embeds one `rounds` list per side (on participant #0).
`battleTime` is modelled as seconds since the epoch: the source parses the
`%Y%m%dT%H%M%S.000Z` string with `strptime`, shifts it by
`timedelta(seconds=i)` and re-formats with `strftime`, which on that format
round-trips, so the shift is addition of `i` seconds. -/

/-- A card dictionary as it appears in the raw API payload (before level
remap and pruning); duel expansion copies these wholesale. -/
structure RawCard where
  id : Nat
  name : String
  level : Nat
  rarity : String
deriving DecidableEq

/-- One entry of a duel participant's `rounds` list: the per-round values
that `extract_duel_battles` copies onto player #0. Every field is read with
`dict.get`, hence `Option`. -/
structure RoundData where
  cards : Option (List RawCard)
  crowns : Option Nat
  kingTowerHitPoints : Option Nat
  princessTowersHitPoints : Option (List Nat)
  elixirLeaked : Option Rat
deriving DecidableEq, Inhabited

/-- A participant of a raw duel battle: the fields `extract_duel_battles`
touches.  An empty Python dict `{}` is the participant with every field
`none`. -/
structure DuelParticipant where
  cards : Option (List RawCard)
  crowns : Option Nat
  kingTowerHitPoints : Option Nat
  princessTowersHitPoints : Option (List Nat)
  elixirLeaked : Option Rat
  rounds : Option (List RoundData)
deriving DecidableEq, Inhabited

/-- The empty dict `{}` used by `extract_duel_battles` for absent players. -/
def emptyDuelParticipant : DuelParticipant :=
  ⟨none, none, none, none, none, none⟩

/-- A raw best-of-N duel battle payload. -/
structure DuelBattle where
  battleTime : Nat
  gameMode : String
  arena : String
  team : List DuelParticipant
  opponent : List DuelParticipant
deriving DecidableEq

/-- Writing one round's values onto player #0 of a side (the block of
`team0["cards"] = team.get("cards")` … `team0.pop("rounds")` assignments):
cards/crowns/tower-HP/leaked-elixir are replaced by the round's values and
the `rounds` key is removed. -/
def writeRoundValues (p : DuelParticipant) (rd : RoundData) : DuelParticipant :=
  { p with
    cards := rd.cards
    crowns := rd.crowns
    kingTowerHitPoints := rd.kingTowerHitPoints
    princessTowersHitPoints := rd.princessTowersHitPoints
    elixirLeaked := rd.elixirLeaked
    rounds := none }

/-- `extract_duel_battles` (clean.py lines 257-330): expand a duel payload
into one standalone battle per round, iterating
`for i in range(min(len(team_rounds), len(opp_rounds)))`, writing round i's
values onto player #0 of each side and shifting `battleTime` by `i`
seconds. -/
def extract_duel_battles (battle : DuelBattle) : List DuelBattle :=
  let team_list := battle.team
  let opp_list := battle.opponent
  let team_player := team_list.headD emptyDuelParticipant
  let opp_player := opp_list.headD emptyDuelParticipant
  let team_rounds := team_player.rounds.getD []
  let opp_rounds := opp_player.rounds.getD []
  (List.range (min team_rounds.length opp_rounds.length)).map fun i =>
    let t := team_rounds.getD i default
    let o := opp_rounds.getD i default
    let cur_team := if battle.team.isEmpty then [emptyDuelParticipant] else battle.team
    let cur_opp := if battle.opponent.isEmpty then [emptyDuelParticipant] else battle.opponent
    { battle with
      team := writeRoundValues (cur_team.headD emptyDuelParticipant) t :: cur_team.tail
      opponent := writeRoundValues (cur_opp.headD emptyDuelParticipant) o :: cur_opp.tail
      battleTime := battle.battleTime + i }

/-- Indexing into a mapped range. -/
theorem getD_map_range {α : Type _} {N i : Nat} (h : i < N) (f : Nat → α) (d : α) :
    ((List.range N).map f).getD i d = f i := by
  rw [List.getD_eq_getElem?_getD, List.getElem?_map, List.getElem?_range h]
  rfl

/-- The shape of the i-th extracted duel record, for i below both sides'
round counts. -/
theorem extract_duel_battles_getD (battle : DuelBattle)
    (tp op : DuelParticipant) (ts os : List DuelParticipant)
    (tr orr : List RoundData)
    (hteam : battle.team = tp :: ts) (hopp : battle.opponent = op :: os)
    (htr : tp.rounds = some tr) (hor : op.rounds = some orr)
    {i : Nat} (hi : i < min tr.length orr.length) :
    (extract_duel_battles battle).getD i battle =
      { battle with
        team := writeRoundValues tp (tr.getD i default) :: ts
        opponent := writeRoundValues op (orr.getD i default) :: os
        battleTime := battle.battleTime + i } := by
  unfold extract_duel_battles
  simp only [hteam, hopp, List.headD_cons, htr, hor, Option.getD_some]
  rw [getD_map_range hi]
  simp [hteam, hopp]

/-- C2: a duel payload whose two sides both embed N rounds expands into
exactly N standalone records in round order; record i carries round i's
cards/crowns/tower-HP/leaked-elixir values on player #0 of each side and has
`battleTime = base + i` seconds, so the battleTime values are strictly
increasing and consecutive records are spaced by exactly one second. -/
theorem extract_duel_battles_expands (battle : DuelBattle)
    (tp op : DuelParticipant) (ts os : List DuelParticipant)
    (tr orr : List RoundData) (N : Nat)
    (hteam : battle.team = tp :: ts) (hopp : battle.opponent = op :: os)
    (htr : tp.rounds = some tr) (hor : op.rounds = some orr)
    (hlt : tr.length = N) (hlo : orr.length = N) :
    (extract_duel_battles battle).length = N ∧
    (∀ i, i < N →
      ((extract_duel_battles battle).getD i battle).battleTime =
          battle.battleTime + i ∧
      ((extract_duel_battles battle).getD i battle).team =
          writeRoundValues tp (tr.getD i default) :: ts ∧
      ((extract_duel_battles battle).getD i battle).opponent =
          writeRoundValues op (orr.getD i default) :: os) ∧
    (∀ i j, i < j → j < N →
      ((extract_duel_battles battle).getD i battle).battleTime <
        ((extract_duel_battles battle).getD j battle).battleTime) ∧
    (∀ i, i + 1 < N →
      ((extract_duel_battles battle).getD (i + 1) battle).battleTime =
        ((extract_duel_battles battle).getD i battle).battleTime + 1) := by
  have hmin : min tr.length orr.length = N := by rw [hlt, hlo, Nat.min_self]
  have hshape : ∀ i, i < N →
      (extract_duel_battles battle).getD i battle =
        { battle with
          team := writeRoundValues tp (tr.getD i default) :: ts
          opponent := writeRoundValues op (orr.getD i default) :: os
          battleTime := battle.battleTime + i } := by
    intro i hi
    exact extract_duel_battles_getD battle tp op ts os tr orr hteam hopp htr hor
      (hmin ▸ hi)
  refine ⟨?_, ?_, ?_, ?_⟩
  · unfold extract_duel_battles
    simp only [hteam, hopp, List.headD_cons, htr, hor, Option.getD_some,
      List.length_map, List.length_range]
    exact hmin
  · intro i hi
    rw [hshape i hi]
    exact ⟨rfl, rfl, rfl⟩
  · intro i j hij hj
    rw [hshape i (lt_trans hij hj), hshape j hj]
    exact Nat.add_lt_add_left hij _
  · intro i hi
    rw [hshape (i + 1) hi, hshape i (Nat.lt_of_succ_lt hi)]
    simp [Nat.add_assoc]

/-- A concrete 2-round duel payload used to instantiate the duel-expansion
theorems. -/
def sampleDuelRounds : List RoundData :=
  [⟨some [⟨26000000, "Knight", 11, "common"⟩], some 1, some 2000, some [1000], some (5/2)⟩,
   ⟨some [⟨26000001, "Archers", 10, "common"⟩], some 0, some 1500, some [800], some 3⟩]

/-- Opponent-side rounds of the sample duel. -/
def sampleDuelOppRounds : List RoundData :=
  [⟨some [⟨26000002, "Goblins", 9, "common"⟩], some 0, some 1800, some [900], some 1⟩,
   ⟨some [⟨26000003, "Giant", 8, "rare"⟩], some 3, some 2100, some [1100], some 2⟩]

/-- A concrete duel battle with two rounds on each side. -/
def sampleDuel : DuelBattle :=
  { battleTime := 1000
    gameMode := "Duel"
    arena := "Arena 10"
    team := [{ emptyDuelParticipant with rounds := some sampleDuelRounds }]
    opponent := [{ emptyDuelParticipant with rounds := some sampleDuelOppRounds }] }

/-- C2 witness: the expansion theorem applied to the concrete 2-round duel:
two records are produced and the second is one second after the first. -/
theorem extract_duel_battles_expands_witness :
    (extract_duel_battles sampleDuel).length = 2 ∧
    ((extract_duel_battles sampleDuel).getD 1 sampleDuel).battleTime =
      ((extract_duel_battles sampleDuel).getD 0 sampleDuel).battleTime + 1 :=
  ⟨(extract_duel_battles_expands sampleDuel _ _ _ _ _ _ 2
      rfl rfl rfl rfl (by decide) (by decide)).1,
   (extract_duel_battles_expands sampleDuel _ _ _ _ _ _ 2
      rfl rfl rfl rfl (by decide) (by decide)).2.2.2 0 (by decide)⟩

/-- C10: when the two sides of a duel payload report differing round counts,
the expansion produces exactly `min` of the two counts many records, pairing
round i of the team side with round i of the opponent side, and silently
drops the unpaired trailing rounds. -/
theorem extract_duel_battles_min_of_mismatched (battle : DuelBattle)
    (tp op : DuelParticipant) (ts os : List DuelParticipant)
    (tr orr : List RoundData)
    (hteam : battle.team = tp :: ts) (hopp : battle.opponent = op :: os)
    (htr : tp.rounds = some tr) (hor : op.rounds = some orr) :
    (extract_duel_battles battle).length = min tr.length orr.length ∧
    (∀ i, i < min tr.length orr.length →
      ((extract_duel_battles battle).getD i battle).team =
          writeRoundValues tp (tr.getD i default) :: ts ∧
      ((extract_duel_battles battle).getD i battle).opponent =
          writeRoundValues op (orr.getD i default) :: os) := by
  refine ⟨?_, ?_⟩
  · unfold extract_duel_battles
    simp only [hteam, hopp, List.headD_cons, htr, hor, Option.getD_some,
      List.length_map, List.length_range]
  · intro i hi
    rw [extract_duel_battles_getD battle tp op ts os tr orr hteam hopp htr hor hi]
    exact ⟨rfl, rfl⟩

/-- A duel battle whose team side reports three rounds but whose opponent
side reports only two. -/
def mismatchedDuel : DuelBattle :=
  { battleTime := 2000
    gameMode := "Duel"
    arena := "Arena 11"
    team := [{ emptyDuelParticipant with
                rounds := some (sampleDuelRounds ++ [default]) }]
    opponent := [{ emptyDuelParticipant with rounds := some sampleDuelOppRounds }] }

/-- C10 witness: with 3 team rounds and 2 opponent rounds, exactly
`min 3 2 = 2` records are produced. -/
theorem extract_duel_battles_min_of_mismatched_witness :
    (extract_duel_battles mismatchedDuel).length = 2 :=
  (extract_duel_battles_min_of_mismatched mismatchedDuel _ _ _ _
      (sampleDuelRounds ++ [default]) sampleDuelOppRounds
      rfl rfl rfl rfl).1

/-! ### Deck signature (`get_decks_win_percentage`, battles_read.py lines 168-244)

The grouping key is `deckSorted`, the `deckCards` array sorted by
`{"evolutionLevel": -1, "id": 1}` (`$sortArray`).  MongoDB does not fix the
relative order of elements that tie on the sort key; we model the sort as a
stable insertion sort, one implementation consistent with the stage. -/

/-- The `$sortArray` comparison `{"evolutionLevel": -1, "id": 1}`:
`a` sorts no later than `b` iff `a` has the higher evolution level, or equal
evolution levels and `a.id ≤ b.id`. -/
def cardLE (a b : Card) : Prop :=
  b.evolutionLevel < a.evolutionLevel ∨
    (a.evolutionLevel = b.evolutionLevel ∧ a.id ≤ b.id)

instance : DecidableRel cardLE := fun a b =>
  decidable_of_iff
    (b.evolutionLevel < a.evolutionLevel ∨
      (a.evolutionLevel = b.evolutionLevel ∧ a.id ≤ b.id)) Iff.rfl

instance : IsTotal Card cardLE where
  total a b := by
    unfold cardLE
    rcases Nat.lt_trichotomy a.evolutionLevel b.evolutionLevel with h | h | h
    · exact Or.inr (Or.inl h)
    · rcases Nat.le_total a.id b.id with h' | h'
      · exact Or.inl (Or.inr ⟨h, h'⟩)
      · exact Or.inr (Or.inr ⟨h.symm, h'⟩)
    · exact Or.inl (Or.inl h)

instance : IsTrans Card cardLE where
  trans a b c hab hbc := by
    unfold cardLE at *
    rcases hab with h1 | ⟨h1, h1'⟩ <;> rcases hbc with h2 | ⟨h2, h2'⟩
    · exact Or.inl (lt_trans h2 h1)
    · exact Or.inl (h2 ▸ h1)
    · exact Or.inl (h1 ▸ h2)
    · exact Or.inr ⟨h1.trans h2, h1'.trans h2'⟩

/-- The `deckSorted` field: the deck canonicalized by sorting with
evolutionLevel descending, then id ascending. -/
def deckSorted (deckCards : List Card) : List Card :=
  List.insertionSort cardLE deckCards

/-- Two sorted lists that are permutations of each other are equal provided
the sort relation is antisymmetric on the keys and the keys of the list are
pairwise distinct. -/
theorem eq_of_perm_of_sorted_of_distinct_keys {α κ : Type _} (key : α → κ)
    (r : α → α → Prop) (hks : ∀ a b, r a b → r b a → key a = key b) :
    ∀ {l₁ l₂ : List α}, l₁.Perm l₂ → l₁.Sorted r → l₂.Sorted r →
      l₁.Pairwise (fun a b => key a ≠ key b) → l₁ = l₂ := by
  intro l₁
  induction l₁ with
  | nil =>
    intro l₂ hp _ _ _
    exact hp.nil_eq
  | cons x xs ih =>
    intro l₂ hp hs₁ hs₂ hd
    cases l₂ with
    | nil =>
      have := hp.length_eq
      simp at this
    | cons y ys =>
      by_cases hxy : x = y
      · subst hxy
        have hp' := hp.cons_inv
        rw [ih hp' hs₁.of_cons hs₂.of_cons (List.pairwise_cons.mp hd).2]
      · exfalso
        have hyxs : y ∈ xs := by
          have hmem : y ∈ x :: xs := hp.symm.subset (List.mem_cons_self y ys)
          rcases List.mem_cons.mp hmem with h | h
          · exact absurd h.symm hxy
          · exact h
        have hxys : x ∈ ys := by
          have hmem : x ∈ y :: ys := hp.subset (List.mem_cons_self x xs)
          rcases List.mem_cons.mp hmem with h | h
          · exact absurd h hxy
          · exact h
        have r1 : r x y := (List.pairwise_cons.mp hs₁).1 y hyxs
        have r2 : r y x := (List.pairwise_cons.mp hs₂).1 x hxys
        exact (List.pairwise_cons.mp hd).1 y hyxs (hks x y r1 r2)

/-- `cardLE` is antisymmetric on the `(evolutionLevel, id)` key. -/
theorem cardLE_key_antisymm (a b : Card) (hab : cardLE a b) (hba : cardLE b a) :
    (a.evolutionLevel, a.id) = (b.evolutionLevel, b.id) := by
  unfold cardLE at hab hba
  rcases hab with h1 | ⟨h1, h1'⟩ <;> rcases hba with h2 | ⟨h2, h2'⟩
  · exact absurd h1 (Nat.lt_asymm h2)
  · exact absurd h1 (h2 ▸ Nat.lt_irrefl _)
  · exact absurd h2 (h1 ▸ Nat.lt_irrefl _)
  · exact Prod.ext h1 (Nat.le_antisymm h1' h2')

/-- C3 (counterexample): two decks holding the same two cards that tie on
the `(evolutionLevel, id)` sort key but differ in `name` canonicalize to
different signatures depending on their input order, even though the decks
are permutations of each other. -/
theorem deckSorted_perm_counterexample :
    deckSorted [⟨26000000, "A", 11, 0⟩, ⟨26000000, "B", 11, 0⟩] ≠
      deckSorted [⟨26000000, "B", 11, 0⟩, ⟨26000000, "A", 11, 0⟩] ∧
    ([⟨26000000, "A", 11, 0⟩, ⟨26000000, "B", 11, 0⟩] : List Card).Perm
      [⟨26000000, "B", 11, 0⟩, ⟨26000000, "A", 11, 0⟩] := by
  constructor
  · decide
  · decide

/-- C3 (amended): provided the deck's cards have pairwise distinct
`(evolutionLevel, id)` sort keys — true of every real deck, which never
repeats a card id — every permutation of the card list canonicalizes to the
identical `deckSorted` signature, so such records land in the same
deck-win-rate group. -/
theorem deckSorted_perm_invariant (l₁ l₂ : List Card) (hperm : l₁.Perm l₂)
    (hkeys : l₁.Pairwise
      (fun a b => (a.evolutionLevel, a.id) ≠ (b.evolutionLevel, b.id))) :
    deckSorted l₁ = deckSorted l₂ := by
  apply eq_of_perm_of_sorted_of_distinct_keys
    (fun c => (c.evolutionLevel, c.id)) cardLE cardLE_key_antisymm
  · exact ((List.perm_insertionSort cardLE l₁).trans hperm).trans
      (List.perm_insertionSort cardLE l₂).symm
  · exact List.sorted_insertionSort cardLE l₁
  · exact List.sorted_insertionSort cardLE l₂
  · exact ((List.perm_insertionSort cardLE l₁).pairwise_iff
      (fun h e => h e.symm)).mpr hkeys

/-- C3 witness: the invariance theorem applied to a concrete 3-card deck and
a rotation of it; both orders produce the same signature. -/
theorem deckSorted_perm_invariant_witness :
    deckSorted [⟨26000000, "Knight", 11, 1⟩, ⟨26000001, "Archers", 10, 0⟩,
        ⟨28000000, "Zap", 9, 0⟩] =
      deckSorted [⟨28000000, "Zap", 9, 0⟩, ⟨26000000, "Knight", 11, 1⟩,
        ⟨26000001, "Archers", 10, 0⟩] :=
  deckSorted_perm_invariant _ _ (by decide) (by decide)

/-! ### Cache key construction (`build_redis_key`, redis_connection.py lines 144-204)

Parameter values are dynamically typed in Python; `ParamVal` covers the
shapes `_to_param_str` handles.  A params dict is modelled as an association
list in iteration order whose keys are pairwise distinct. -/

/-- A scalar cache parameter value.  `date` carries the `isoformat()`
rendering of a datetime/date/time object; `pynone` is Python `None`. -/
inductive ParamScalar where
  | str (s : String)
  | int (n : Int)
  | bool (b : Bool)
  | date (iso : String)
  | pynone
deriving DecidableEq

/-- A cache parameter value: a scalar or a list/tuple of scalars (the only
container shape the repository's callers pass, e.g. `gameModes`). -/
inductive ParamVal where
  | scalar (v : ParamScalar)
  | list (items : List ParamScalar)
deriving DecidableEq

/-- Shorthand so params read like the Python call sites. -/
def ParamVal.str (s : String) : ParamVal := .scalar (.str s)

/-- Shorthand for a date-valued parameter. -/
def ParamVal.date (iso : String) : ParamVal := .scalar (.date iso)

/-- Python `str(...)` of a scalar value (exact for the string values the
tag path uses; approximate spellings for the other shapes). -/
def scalarStr : ParamScalar → String
  | .str s => s
  | .int n => toString n
  | .bool b => if b then "True" else "False"
  | .date iso => iso
  | .pynone => "None"

/-- Python `str(...)` of a parameter value. -/
def pyStr : ParamVal → String
  | .scalar v => scalarStr v
  | .list xs => "[" ++ String.intercalate ", " (xs.map scalarStr) ++ "]"

/-- `_to_param_str` (redis_connection.py lines 118-142) on a scalar:
datetime/date/time to isoformat, booleans to `true`/`false`, everything
else through `str`. -/
def scalar_to_param_str : ParamScalar → String
  | .date iso => iso
  | .bool b => if b then "true" else "false"
  | .str s => s
  | .int n => toString n
  | .pynone => "None"

/-- `_to_param_str`: lists/tuples recurse element-wise and join with
commas. -/
def to_param_str : ParamVal → String
  | .scalar v => scalar_to_param_str v
  | .list xs => String.intercalate "," (xs.map scalar_to_param_str)

/-- Bytes left unescaped by `urllib.parse.quote(_, safe="")`: ASCII
letters, digits, and `_ . - ~`. -/
def isSafeByte (b : Nat) : Bool :=
  (48 ≤ b && b ≤ 57) || (65 ≤ b && b ≤ 90) || (97 ≤ b && b ≤ 122) ||
    b == 95 || b == 46 || b == 45 || b == 126

/-- Uppercase hex digit, as `quote` produces. -/
def hexDigit (k : Nat) : Char :=
  ['0', '1', '2', '3', '4', '5', '6', '7', '8', '9',
   'A', 'B', 'C', 'D', 'E', 'F'].getD k '0'

/-- The UTF-8 encoding of one character, as a list of byte values. -/
def charUtf8Bytes (c : Char) : List Nat :=
  let n := c.toNat
  if n < 128 then [n]
  else if n < 2048 then [192 + n / 64, 128 + n % 64]
  else if n < 65536 then [224 + n / 4096, 128 + (n / 64) % 64, 128 + n % 64]
  else [240 + n / 262144, 128 + (n / 4096) % 64, 128 + (n / 64) % 64, 128 + n % 64]

/-- `urllib.parse.quote(s, safe="")`: percent-encode every UTF-8 byte
outside the always-safe set. -/
def pyQuote (s : String) : String :=
  String.mk ((s.data.flatMap charUtf8Bytes).flatMap fun b =>
    if isSafeByte b then [Char.ofNat b]
    else ['%', hexDigit (b / 16), hexDigit (b % 16)])

/-- `len(key.encode("utf-8"))`. -/
def utf8Len (s : String) : Nat :=
  (s.data.flatMap charUtf8Bytes).length

/-- Python `s.lstrip("#")`. -/
def lstripHash (s : String) : String :=
  String.mk (s.data.dropWhile (· = '#'))

/-- Python truthiness of a parameter value (`if tag:`). -/
def pyTruthy : ParamVal → Bool
  | .scalar (.str s) => !s.isEmpty
  | .scalar (.int n) => n != 0
  | .scalar (.bool b) => b
  | .scalar (.date _) => true
  | .scalar .pynone => false
  | .list xs => !xs.isEmpty

/-- A params dict: association list in iteration order. -/
abbrev Params := List (String × ParamVal)

/-- Python's `sorted` on `(key, value)` tuples compares keys first; dict
keys are distinct, so the value tie-break never fires. -/
def paramLE (p q : String × ParamVal) : Prop := p.1 ≤ q.1

instance : DecidableRel paramLE := fun p q =>
  inferInstanceAs (Decidable (p.1 ≤ q.1))

instance : IsTotal (String × ParamVal) paramLE :=
  ⟨fun p q => le_total p.1 q.1⟩

instance : IsTrans (String × ParamVal) paramLE :=
  ⟨fun _ _ _ h1 h2 => le_trans h1 h2⟩

/-- One `key=value` segment: `quote(key)=quote(_to_param_str(val))`. -/
def param_segment (kv : String × ParamVal) : String :=
  pyQuote kv.1 ++ "=" ++ pyQuote (to_param_str kv.2)

/-- The leading playerTag segment: the tag is passed through `str`, has its
leading `#`s stripped (the stripped tag is a `str`, so `_to_param_str`
returns it unchanged), and both key and value are quoted. -/
def tag_segment (v : ParamVal) : String :=
  pyQuote "playerTag" ++ "=" ++ pyQuote (lstripHash (pyStr v))

/-- The segments of the assembled key before the length check:
`[service, resource]`, then the playerTag segment if present and not None,
then the remaining params sorted. -/
def assembled_parts (service resource : String) (params : Params) :
    List String :=
  let tag := params.lookup "playerTag"
  let other_params := params.filter (fun kv => kv.1 ≠ "playerTag")
  let tagParts := match tag with
    | some v => if v = ParamVal.scalar .pynone then [] else [tag_segment v]
    | none => []
  [service, resource] ++ tagParts ++
    (List.insertionSort paramLE other_params).map param_segment

/-- `":".join(parts)` before the 512-byte check. -/
def assembled_key (service resource : String) (params : Params) : String :=
  String.intercalate ":" (assembled_parts service resource params)

/-- `build_redis_key` (redis_connection.py lines 144-204).  `md5hex` models
`hashlib.md5(...).hexdigest()`, an arbitrary fixed function of the key
string.  Note the hashed fallback labels the readable tag `player_tag` and
does not quote it. -/
def build_redis_key (md5hex : String → String) (service resource : String)
    (params : Params) : String :=
  let key := assembled_key service resource params
  if utf8Len key ≤ 512 then key
  else
    let digest := md5hex key
    match params.lookup "playerTag" with
    | some v =>
      if pyTruthy v then
        String.intercalate ":"
          [service, resource, "player_tag=" ++ lstripHash (pyStr v), digest]
      else String.intercalate ":" [service, resource, digest]
    | none => String.intercalate ":" [service, resource, digest]

/-- Association-list lookup is invariant under permutation when the keys
are pairwise distinct. -/
theorem lookup_eq_of_perm {α β : Type _} [DecidableEq α]
    {l₁ l₂ : List (α × β)} (hp : l₁.Perm l₂) :
    l₁.Pairwise (fun a b => a.1 ≠ b.1) → ∀ k, l₁.lookup k = l₂.lookup k := by
  induction hp with
  | nil => exact fun _ _ => rfl
  | cons x _ ih =>
    intro hnd k
    obtain ⟨_, htail⟩ := List.pairwise_cons.mp hnd
    obtain ⟨kx, vx⟩ := x
    simp only [List.lookup]
    cases h : k == kx
    · exact ih htail k
    · rfl
  | swap x y l =>
    intro hnd k
    obtain ⟨hxy, -⟩ := List.pairwise_cons.mp hnd
    have hne : y.1 ≠ x.1 := hxy x (List.mem_cons_self x l)
    obtain ⟨kx, vx⟩ := x
    obtain ⟨ky, vy⟩ := y
    simp only [List.lookup]
    cases h1 : k == ky <;> cases h2 : k == kx <;> try rfl
    exact absurd ((eq_of_beq h1).symm.trans (eq_of_beq h2)) hne
  | trans h₁ _ ih₁ ih₂ =>
    intro hnd k
    exact (ih₁ hnd k).trans
      (ih₂ ((h₁.pairwise_iff (fun h e => h e.symm)).mp hnd) k)

/-- `paramLE` is antisymmetric on keys. -/
theorem paramLE_key_antisymm (p q : String × ParamVal)
    (hpq : paramLE p q) (hqp : paramLE q p) : p.1 = q.1 :=
  le_antisymm hpq hqp

/-- C9: constructing a cache key from the same `(service, resource, params)`
with the parameters supplied in any iteration order yields the identical key
string; when a playerTag parameter is present (and the key is within the
512-byte ceiling) it forms the first parameter segment with its leading `#`s
stripped, and the remaining parameters follow percent-encoded, sorted in
lexicographic key order. -/
theorem build_redis_key_deterministic (md5hex : String → String)
    (service resource : String) (params params' : Params)
    (hnd : params.Pairwise (fun a b => a.1 ≠ b.1))
    (hperm : params.Perm params') :
    build_redis_key md5hex service resource params' =
      build_redis_key md5hex service resource params ∧
    (∀ tagv : String,
      params.lookup "playerTag" = some (.str tagv) →
      utf8Len (assembled_key service resource params) ≤ 512 →
      ∃ others : Params,
        others.Perm (params.filter (fun kv => kv.1 ≠ "playerTag")) ∧
        (others.map Prod.fst).Sorted (· ≤ ·) ∧
        build_redis_key md5hex service resource params =
          String.intercalate ":"
            ([service, resource,
              pyQuote "playerTag" ++ "=" ++ pyQuote (lstripHash tagv)] ++
             others.map param_segment)) := by
  have hlook : params'.lookup "playerTag" = params.lookup "playerTag" :=
    (lookup_eq_of_perm hperm hnd "playerTag").symm
  have hsort :
      List.insertionSort paramLE (params'.filter (fun kv => kv.1 ≠ "playerTag")) =
      List.insertionSort paramLE (params.filter (fun kv => kv.1 ≠ "playerTag")) := by
    apply eq_of_perm_of_sorted_of_distinct_keys Prod.fst paramLE paramLE_key_antisymm
    · exact ((List.perm_insertionSort paramLE _).trans
        ((hperm.filter _).symm)).trans (List.perm_insertionSort paramLE _).symm
    · exact List.sorted_insertionSort paramLE _
    · exact List.sorted_insertionSort paramLE _
    · exact ((List.perm_insertionSort paramLE _).pairwise_iff
        (fun h e => h e.symm)).mpr
        (((hperm.filter _).pairwise_iff (fun h e => h e.symm)).mp
          (hnd.filter _))
  have hparts : assembled_parts service resource params' =
      assembled_parts service resource params := by
    simp only [assembled_parts, hlook, hsort]
  have hkey : assembled_key service resource params' =
      assembled_key service resource params := by
    unfold assembled_key
    rw [hparts]
  constructor
  · unfold build_redis_key
    rw [hkey, hlook]
  · intro tagv htag hlen
    refine ⟨List.insertionSort paramLE
      (params.filter (fun kv => kv.1 ≠ "playerTag")), ?_, ?_, ?_⟩
    · exact List.perm_insertionSort paramLE _
    · exact (List.sorted_insertionSort paramLE _).map Prod.fst
        (fun _ _ h => h)
    · unfold build_redis_key
      rw [if_pos hlen]
      unfold assembled_key assembled_parts
      rw [htag]
      rfl

/-- C9 witness: the determinism theorem applied to concrete params given in
two different iteration orders. -/
theorem build_redis_key_deterministic_witness :
    build_redis_key (fun _ => "d41d8cd9") "mongo" "playerDecks"
        [("startDate", .date "2025-08-01"), ("playerTag", .str "#YYRJQY28")] =
      build_redis_key (fun _ => "d41d8cd9") "mongo" "playerDecks"
        [("playerTag", .str "#YYRJQY28"), ("startDate", .date "2025-08-01")] :=
  (build_redis_key_deterministic (fun _ => "d41d8cd9") "mongo" "playerDecks"
    [("playerTag", .str "#YYRJQY28"), ("startDate", .date "2025-08-01")]
    [("startDate", .date "2025-08-01"), ("playerTag", .str "#YYRJQY28")]
    (by decide) (by decide)).1

/-! ### Versioned cache keys and global invalidation

The repository's callers (`data_scraper/src/main.py`, the FastAPI routers)
invoke an async `build_redis_key(conn=…, service=…, resource=…, params=…,
version_ahead=…)` and `RedisConn.increment_version()`.  Those definitions
are not among the provided sources — `redis_service/redis_connection.py`
holds only the unversioned synchronous key builder — so the versioned layer
is modelled from the spec on top of the unversioned assembly. -/

/-- Decimal digit characters of a natural number, most significant first. -/
def natDigitsChar (n : Nat) : List Char :=
  if n = 0 then ['0'] else (Nat.digits 10 n).reverse.map Nat.digitChar

/-- Decimal rendering of a natural number (digit characters only). -/
def natStr (n : Nat) : String :=
  String.mk (natDigitsChar n)

/-- Digit characters of values below 10 are never the `:` separator. -/
theorem digitChar_ne_colon : ∀ d : Nat, d < 10 → Nat.digitChar d ≠ ':' := by
  decide

/-- `Nat.digitChar` is injective below 10. -/
theorem digitChar_inj_lt :
    ∀ a : Nat, a < 10 → ∀ b : Nat, b < 10 →
      Nat.digitChar a = Nat.digitChar b → a = b := by
  decide

/-- Digit-character renderings of bounded digit lists are injective. -/
theorem map_digitChar_inj : ∀ (as bs : List Nat), (∀ a ∈ as, a < 10) →
    (∀ b ∈ bs, b < 10) → as.map Nat.digitChar = bs.map Nat.digitChar →
    as = bs
  | [], [], _, _, _ => rfl
  | [], _ :: _, _, _, h => by simp at h
  | _ :: _, [], _, _, h => by simp at h
  | a :: as, b :: bs, ha, hb, h => by
    simp only [List.map_cons, List.cons.injEq] at h
    have h1 : a = b :=
      digitChar_inj_lt a (ha a (List.mem_cons_self a as))
        b (hb b (List.mem_cons_self b bs)) h.1
    have h2 : as = bs :=
      map_digitChar_inj as bs (fun x hx => ha x (List.mem_cons_of_mem a hx))
        (fun x hx => hb x (List.mem_cons_of_mem b hx)) h.2
    rw [h1, h2]

/-- A nonzero number's digit list is never `[0]`. -/
theorem digits_ne_single_zero {n : Nat} (hn : n ≠ 0)
    (h : Nat.digits 10 n = [0]) : False := by
  have hofd := Nat.ofDigits_digits 10 n
  rw [h] at hofd
  simp [Nat.ofDigits] at hofd
  exact hn hofd.symm

/-- Every character of `natDigitsChar n` is a digit character, never `:`. -/
theorem natStr_ne_colon (n : Nat) : ∀ c ∈ natDigitsChar n, c ≠ ':' := by
  intro c hc
  unfold natDigitsChar at hc
  split at hc
  · have : c = '0' := by simpa using hc
    rw [this]
    decide
  · have hc' : c ∈ (Nat.digits 10 n).reverse.map Nat.digitChar := hc
    obtain ⟨d, hd, rfl⟩ := List.mem_map.mp hc'
    exact digitChar_ne_colon d
      (Nat.digits_lt_base (by norm_num) (List.mem_reverse.mp hd))

/-- `natDigitsChar` is injective. -/
theorem natDigitsChar_inj {m n : Nat} (h : natDigitsChar m = natDigitsChar n) :
    m = n := by
  unfold natDigitsChar at h
  by_cases hm : m = 0 <;> by_cases hn : n = 0
  · exact hm.trans hn.symm
  · exfalso
    rw [if_pos hm, if_neg hn] at h
    have hmap : ([0] : List Nat).map Nat.digitChar =
        (Nat.digits 10 n).reverse.map Nat.digitChar := h
    have hrev : ([0] : List Nat) = (Nat.digits 10 n).reverse :=
      map_digitChar_inj _ _ (by intro a ha; simp at ha; omega)
        (fun b hb => Nat.digits_lt_base (by norm_num) (List.mem_reverse.mp hb))
        hmap
    exact digits_ne_single_zero hn (by simpa using congrArg List.reverse hrev.symm)
  · exfalso
    rw [if_neg hm, if_pos hn] at h
    have hmap : (Nat.digits 10 m).reverse.map Nat.digitChar =
        ([0] : List Nat).map Nat.digitChar := h
    have hrev : (Nat.digits 10 m).reverse = ([0] : List Nat) :=
      map_digitChar_inj _ _
        (fun b hb => Nat.digits_lt_base (by norm_num) (List.mem_reverse.mp hb))
        (by intro a ha; simp at ha; omega) hmap
    exact digits_ne_single_zero hm (by simpa using congrArg List.reverse hrev)
  · rw [if_neg hm, if_neg hn] at h
    have hrev := map_digitChar_inj _ _
      (fun b hb => Nat.digits_lt_base (by norm_num) (List.mem_reverse.mp hb))
      (fun b hb => Nat.digits_lt_base (by norm_num) (List.mem_reverse.mp hb))
      h
    have hdig : Nat.digits 10 m = Nat.digits 10 n := by
      simpa using congrArg List.reverse hrev
    have h1 := Nat.ofDigits_digits 10 m
    have h2 := Nat.ofDigits_digits 10 n
    rw [← h1, ← h2, hdig]

/-- `natStr` is injective. -/
theorem natStr_inj {m n : Nat} (h : natStr m = natStr n) : m = n :=
  natDigitsChar_inj (congrArg String.data h)

/-- `takeWhile (· ≠ ':')` of `w ++ ":" ++ r` recovers `w` when `w` is
colon-free. -/
theorem takeWhile_colon_append :
    ∀ (w : List Char), (∀ c ∈ w, c ≠ ':') → ∀ (r : List Char),
      (w ++ ':' :: r).takeWhile (fun c => c != ':') = w
  | [], _, r => by simp [List.takeWhile]
  | a :: as, hw, r => by
    have ha : a ≠ ':' := hw a (List.mem_cons_self a as)
    simp only [List.cons_append, List.takeWhile_cons]
    rw [if_pos (by simpa using ha)]
    rw [takeWhile_colon_append as (fun c hc => hw c (List.mem_cons_of_mem a hc)) r]

/-- The Redis cache state: the global version counter plus the stored
entries (key, payload, remaining TTL). -/
structure RedisStore where
  version : Nat
  entries : List (String × String × Nat)

/-- Modelled from the spec: `RedisConn.increment_version` (used by
`data_scraper/src/main.py` line 298 but absent from the provided sources)
atomically increments the single process-wide version counter and returns
the new value; it touches no stored entry (old entries are left to expire
via their TTL). -/
def increment_version (s : RedisStore) : RedisStore × Nat :=
  ({ s with version := s.version + 1 }, s.version + 1)

/-- Modelled from the spec: the versioned async `build_redis_key(conn,
service, resource, params, version_ahead)` invoked by the repository's
callers (absent from the provided sources, which hold only the unversioned
builder).  Per the spec it reads the single global integer version at every
key construction (plus one when writing a version-ahead entry) and embeds
it as the first segment, ahead of the unversioned key assembly. -/
def build_redis_key_versioned (md5hex : String → String) (store : RedisStore)
    (service resource : String) (params : Params)
    (version_ahead : Bool) : String :=
  let version := if version_ahead then store.version + 1 else store.version
  natStr version ++ ":" ++ build_redis_key md5hex service resource params

/-- The first `:`-separated segment of a versioned key is the version. -/
theorem build_redis_key_versioned_first_segment (md5hex : String → String)
    (store : RedisStore) (service resource : String) (params : Params) :
    ((build_redis_key_versioned md5hex store service resource params
        false).data.takeWhile (fun c => c != ':')) =
      (natStr store.version).data := by
  unfold build_redis_key_versioned
  simp only [if_neg Bool.false_ne_true]
  have hdata : (natStr store.version ++ ":" ++
      build_redis_key md5hex service resource params).data =
      (natStr store.version).data ++ ':' ::
        (build_redis_key md5hex service resource params).data := by
    simp [String.data_append]
  rw [hdata]
  exact takeWhile_colon_append _ (natStr_ne_colon _) _

/-- C6: every key construction embeds the current global version as the
first segment; after `increment_version` no freshly constructed key (for
any service/resource/params) can address a key built under the old
version, and the stored entries are untouched by the increment (they are
left to expire via TTL). -/
theorem cache_version_cutover (md5hex : String → String) (store : RedisStore)
    (service resource : String) (params : Params) :
    ((build_redis_key_versioned md5hex store service resource params
        false).data.takeWhile (fun c => c != ':')) =
      (natStr store.version).data ∧
    (∀ (service' resource' : String) (params' : Params),
      build_redis_key_versioned md5hex (increment_version store).1
          service' resource' params' false ≠
        build_redis_key_versioned md5hex store service resource params
          false) ∧
    (increment_version store).1.entries = store.entries := by
  refine ⟨build_redis_key_versioned_first_segment md5hex store service
    resource params, ?_, rfl⟩
  intro service' resource' params' heq
  have h1 := build_redis_key_versioned_first_segment md5hex
    (increment_version store).1 service' resource' params'
  have h2 := build_redis_key_versioned_first_segment md5hex store service
    resource params
  rw [heq, h2] at h1
  have hv : store.version = (increment_version store).1.version :=
    natStr_inj (congrArg String.mk h1)
  simp only [increment_version] at hv
  omega

/-! ### Aggregation queries (battles_read.py / query_utils.py)

Canonical battle records as stored; `battleTime` in UTC seconds, calendar
dates as day numbers.  `zoneOffset` models the `ZoneInfo` database: the
offset (in seconds east of UTC) of a named timezone, `none` when the name
is unknown (`ZoneInfo` raises, re-raised as `ValueError`). -/

/-- A stored canonical battle record, as read by the aggregation
pipelines. -/
structure StoredBattle where
  referencePlayerTag : String
  battleTime : Int
  gameMode : String
  gameResult : String
  team : List Participant
  opponent : List Participant
deriving DecidableEq

/-- `extract_deck_cards_stage`'s per-card mapping (query_utils.py lines
150-159): `$ifNull` defaults for name (`"UNKNOWN"`), level (1) and
evolutionLevel (0). -/
def deckCardOf (c : StoredCard) : Card :=
  ⟨c.id, c.name.getD "UNKNOWN", c.level.getD 1, c.evolutionLevel.getD 0⟩

/-- `extract_deck_cards_stage` (query_utils.py lines 99-163): the cards of
the first team member whose tag equals the player's, `[]` when absent. -/
def extract_deck_cards (player_tag : String) (b : StoredBattle) : List Card :=
  (((b.team.filter (fun m => m.tag == player_tag)).head?.map
    Participant.cards).getD []).map deckCardOf

/-- The `$match` predicate built by `match_tag_date_mode_range_stage`
(query_utils.py lines 36-96): same reference tag, `battleTime` in
`[start_utc, end_utc)` where the bounds are the local midnights of
`start_date` and `end_date + 1`, and — only when the mode list is
non-empty — `gameMode` in the allow-list. -/
def match_pred (player_tag : String) (start_date end_date : Int)
    (game_modes : List String) (off : Int) (b : StoredBattle) : Bool :=
  let start_utc := start_date * 86400 - off
  let end_utc := (end_date + 1) * 86400 - off
  b.referencePlayerTag == player_tag &&
    (start_utc ≤ b.battleTime && b.battleTime < end_utc) &&
    (game_modes.isEmpty || game_modes.contains b.gameMode)

/-- `match_tag_date_mode_range_stage`: resolves the timezone (raising
`ValueError` for an unknown name) and yields the match predicate. -/
def match_tag_date_mode_range (zoneOffset : String → Option Int)
    (player_tag : String) (start_date end_date : Int)
    (game_modes : List String) (timezone : String) :
    Except String (StoredBattle → Bool) :=
  match zoneOffset timezone with
  | none => .error ("Invalid timezone: " ++ timezone)
  | some off => .ok (match_pred player_tag start_date end_date game_modes off)

/-- Distinct values in first-occurrence order (`$group` keys / `$addToSet`
collect an unordered set; this picks one deterministic order). -/
def uniqueKeys {κ : Type _} [DecidableEq κ] : List κ → List κ
  | [] => []
  | k :: ks => k :: (uniqueKeys ks).filter (· ≠ k)

/-- One group of the deck win-rate query. -/
structure DeckStat where
  deck : List Card
  count : Nat
  wins : Nat
  winRate : Rat
  firstSeen : Int
  lastSeen : Int
  modes : List String
deriving DecidableEq

/-- `$sort {"count": -1, "lastSeen": -1}`. -/
def deckStatLE (a b : DeckStat) : Prop :=
  b.count < a.count ∨ (a.count = b.count ∧ b.lastSeen ≤ a.lastSeen)

instance : DecidableRel deckStatLE := fun a b =>
  decidable_of_iff
    (b.count < a.count ∨ (a.count = b.count ∧ b.lastSeen ≤ a.lastSeen)) Iff.rfl

/-- The result shape of `get_decks_win_percentage`. -/
structure DecksResult where
  totalBattles : Nat
  decks : List DeckStat
deriving DecidableEq

/-- `get_decks_win_percentage` (battles_read.py lines 139-256): filter,
extract and canonicalize each record's deck, group by the sorted deck,
compute per-group count/wins/winRate/firstSeen/lastSeen/modes, sort groups
by count then lastSeen descending; `totalBattles` counts the matched
records (`$count` on an empty facet yields no document, `$ifNull` turns
that into 0). -/
def get_decks_win_percentage (zoneOffset : String → Option Int)
    (records : List StoredBattle) (player_tag : String)
    (start_date end_date : Int) (game_modes : List String)
    (timezone : String) : Except String DecksResult := do
  if start_date > end_date then
    throw "start_date cannot be after end_date"
  let pred ← match_tag_date_mode_range zoneOffset player_tag start_date
    end_date game_modes timezone
  let matched := records.filter pred
  let rows := matched.map fun b =>
    (deckSorted (extract_deck_cards player_tag b), b)
  let keys := uniqueKeys (rows.map Prod.fst)
  let decks := keys.map fun k =>
    let grp := (rows.filter (fun r => r.1 == k)).map Prod.snd
    let count := grp.length
    let wins := (grp.filter (fun b => b.gameResult == "Victory")).length
    let times := grp.map StoredBattle.battleTime
    { deck := k
      count := count
      wins := wins
      winRate := if count = 0 then 0 else (wins : Rat) / (count : Rat) * 100
      firstSeen := times.foldl min (times.headD 0)
      lastSeen := times.foldl max (times.headD 0)
      modes := uniqueKeys (grp.map StoredBattle.gameMode) }
  pure { totalBattles := matched.length
         decks := List.insertionSort deckStatLE decks }

/-- One group of the card win-rate query, keyed by
`(id, name, evolutionLevel)`. -/
structure CardStat where
  card : Nat × String × Nat
  usage : Nat
  wins : Nat
  winRate : Rat
deriving DecidableEq

/-- `$sort {"usage": -1}`. -/
def cardStatLE (a b : CardStat) : Prop := b.usage ≤ a.usage

instance : DecidableRel cardStatLE := fun a b =>
  decidable_of_iff (b.usage ≤ a.usage) Iff.rfl

/-- The result shape of `get_cards_win_percentage`. -/
structure CardsResult where
  totalBattles : Nat
  cards : List CardStat
deriving DecidableEq

/-- `get_cards_win_percentage` (battles_read.py lines 259-359): filter,
explode each matched record's deck (`$unwind`), group by the card triple,
compute usage/wins/winRate, sort by usage descending. -/
def get_cards_win_percentage (zoneOffset : String → Option Int)
    (records : List StoredBattle) (player_tag : String)
    (start_date end_date : Int) (game_modes : List String)
    (timezone : String) : Except String CardsResult := do
  if start_date > end_date then
    throw "start_date cannot be after end_date"
  let pred ← match_tag_date_mode_range zoneOffset player_tag start_date
    end_date game_modes timezone
  let matched := records.filter pred
  let exploded := matched.flatMap fun b =>
    (extract_deck_cards player_tag b).map fun c =>
      ((c.id, c.name, c.evolutionLevel), b)
  let keys := uniqueKeys (exploded.map Prod.fst)
  let cards := keys.map fun k =>
    let grp := (exploded.filter (fun r => r.1 == k)).map Prod.snd
    let usage := grp.length
    let wins := (grp.filter (fun b => b.gameResult == "Victory")).length
    { card := k
      usage := usage
      wins := wins
      winRate := if usage = 0 then 0 else (wins : Rat) / (usage : Rat) * 100 }
  pure { totalBattles := matched.length
         cards := List.insertionSort cardStatLE cards }

/-- Maximum crowns across one side (the `$reduce` over `$ifNull` crowns
with initial value 0 in `get_daily_stats`). -/
def crowns_side_max (side : List Participant) : Nat :=
  (side.map (fun p => p.crowns.getD 0)).foldl max 0

/-- Rounding to two decimals (`$round [⬝, 2]`). -/
def round2 (x : Rat) : Rat := (round (x * 100) : Int) / 100

/-- Per-record derived fields of the daily rollup (stages A-D of
`get_daily_stats`). -/
structure DailyRow where
  day : Int
  crownsForSafe : Nat
  crownsAgainstSafe : Nat
  isWin : Nat
  isLoss : Nat
  isDraw : Nat
  elixirLeakedSafe : Rat
deriving DecidableEq

/-- One output row of the daily rollup.  `date` is the local day number;
the `%Y-%m-%d` string of the output is determined by it. -/
structure DayStat where
  date : Int
  battles : Nat
  victories : Nat
  defeats : Nat
  draws : Nat
  crownsFor : Nat
  crownsAgainst : Nat
  elixirLeaked : Rat
  winRate : Rat
deriving DecidableEq

/-- `$sort {"date": 1}`. -/
def dayStatLE (a b : DayStat) : Prop := a.date ≤ b.date

instance : DecidableRel dayStatLE := fun a b =>
  decidable_of_iff (a.date ≤ b.date) Iff.rfl

/-- The result shape of `get_daily_stats`. -/
structure DailyResult where
  daily : List DayStat
  totalBattles : Nat
deriving DecidableEq

/-- `get_daily_stats` (battles_read.py lines 362-557): filter, derive the
local day (`$dateTrunc` in the caller's timezone), max-per-side crowns,
win/loss/draw flags and the reference player's leaked elixir (0 when
absent), group per day, shape winRate (rounded to 2 decimals) and sort by
day ascending; `totalBattles` sums the per-day battle counts in Python. -/
def get_daily_stats (zoneOffset : String → Option Int)
    (records : List StoredBattle) (player_tag : String)
    (start_date end_date : Int) (game_modes : List String)
    (timezone : String) : Except String DailyResult := do
  if start_date > end_date then
    throw "start_date cannot be after end_date"
  let pred ← match_tag_date_mode_range zoneOffset player_tag start_date
    end_date game_modes timezone
  let off := (zoneOffset timezone).getD 0
  let matched := records.filter pred
  let rows := matched.map fun b =>
    let me := b.team.find? (fun t => t.tag == b.referencePlayerTag)
    { day := (b.battleTime + off).fdiv 86400
      crownsForSafe := crowns_side_max b.team
      crownsAgainstSafe := crowns_side_max b.opponent
      isWin := if b.gameResult == "Victory" then 1 else 0
      isLoss := if b.gameResult == "Defeat" then 1 else 0
      isDraw := if b.gameResult == "Draw" then 1 else 0
      elixirLeakedSafe := (me.bind Participant.elixirLeaked).getD 0 : DailyRow }
  let days := uniqueKeys (rows.map DailyRow.day)
  let daily := days.map fun d =>
    let grp := rows.filter (fun r => r.day == d)
    let battles := grp.length
    let victories := (grp.map DailyRow.isWin).sum
    { date := d
      battles := battles
      victories := victories
      defeats := (grp.map DailyRow.isLoss).sum
      draws := (grp.map DailyRow.isDraw).sum
      crownsFor := (grp.map DailyRow.crownsForSafe).sum
      crownsAgainst := (grp.map DailyRow.crownsAgainstSafe).sum
      elixirLeaked := round2 ((grp.map DailyRow.elixirLeakedSafe).sum)
      winRate := if battles = 0 then 0
        else round2 ((victories : Rat) / (battles : Rat) * 100) : DayStat }
  let sortedDaily := List.insertionSort dayStatLE daily
  pure { daily := sortedDaily
         totalBattles := (sortedDaily.map DayStat.battles).sum }

/-- C7: an aggregation query over a valid date range and a known timezone
that matches zero records returns the well-formed zero-valued result —
`{totalBattles: 0, decks: []}`, `{totalBattles: 0, cards: []}` and
`{daily: [], totalBattles: 0}` respectively — and raises no error. -/
theorem aggregation_zero_matches (zoneOffset : String → Option Int)
    (records : List StoredBattle) (player_tag : String)
    (start_date end_date : Int) (game_modes : List String)
    (timezone : String) (off : Int)
    (hrange : start_date ≤ end_date)
    (htz : zoneOffset timezone = some off)
    (hzero : records.filter
      (match_pred player_tag start_date end_date game_modes off) = []) :
    get_decks_win_percentage zoneOffset records player_tag start_date
        end_date game_modes timezone = .ok ⟨0, []⟩ ∧
    get_cards_win_percentage zoneOffset records player_tag start_date
        end_date game_modes timezone = .ok ⟨0, []⟩ ∧
    get_daily_stats zoneOffset records player_tag start_date end_date
        game_modes timezone = .ok ⟨[], 0⟩ := by
  have hnot : ¬ start_date > end_date := not_lt.mpr hrange
  refine ⟨?_, ?_, ?_⟩ <;>
    simp [get_decks_win_percentage, get_cards_win_percentage, get_daily_stats,
      match_tag_date_mode_range, htz, hzero, hnot, uniqueKeys]

/-- C7 witness: the zero-match theorem applied to a store holding one
battle of a *different* player, so the filter genuinely runs and matches
nothing. -/
theorem aggregation_zero_matches_witness :
    get_decks_win_percentage (fun s => if s == "UTC" then some 0 else none)
        [⟨"#OTHER", 100, "Ladder", "Victory", [], []⟩] "#YYRJQY28"
        0 1 [] "UTC" = .ok ⟨0, []⟩ ∧
    get_cards_win_percentage (fun s => if s == "UTC" then some 0 else none)
        [⟨"#OTHER", 100, "Ladder", "Victory", [], []⟩] "#YYRJQY28"
        0 1 [] "UTC" = .ok ⟨0, []⟩ ∧
    get_daily_stats (fun s => if s == "UTC" then some 0 else none)
        [⟨"#OTHER", 100, "Ladder", "Victory", [], []⟩] "#YYRJQY28"
        0 1 [] "UTC" = .ok ⟨[], 0⟩ :=
  aggregation_zero_matches (fun s => if s == "UTC" then some 0 else none)
    [⟨"#OTHER", 100, "Ladder", "Victory", [], []⟩] "#YYRJQY28"
    0 1 [] "UTC" 0 (by decide) (by decide) (by decide)

/-! ### Per-player retry loop (`process_player`, data_scraper/src/main.py lines 102-195)

The loop body's control flow, with the outcome of the k-th API call given
by `fetch k`.  `attempt` is initialized to 0 before the `while True` loop
and — exactly as in the source — never incremented anywhere.  `fuel` bounds
the number of iterations we unroll; the source loop has no such bound. -/

/-- Outcome of one `get_player_battle_logs` call. -/
inductive FetchResult where
  | ok
  | maintenance
  | httpError (code : Nat)
  | netError
  | otherError
deriving DecidableEq

/-- How a `process_player` invocation ends. -/
inductive PlayerOutcome where
  | completed
  | skipped
  | maintenanceRaised
  | fuelExhausted
deriving DecidableEq

/-- `process_player`'s retry loop: classify the fetch outcome; 403/404 and
unclassified errors return immediately; 429/500/502/503/504 and network
errors retry after sleeping `BASE_BACKOFF * 2 ** attempt` while
`attempt < MAX_RETRIES`; a maintenance error re-raises.  Returns the final
outcome and the backoff sleeps performed, in order.  The recursive call
passes `attempt` unchanged, mirroring the source, which never increments
it. -/
def process_player_run (fetch : Nat → FetchResult) (maxRetries : Nat)
    (baseBackoff : Rat) : Nat → Nat → Nat → PlayerOutcome × List Rat
  | 0, _, _ => (.fuelExhausted, [])
  | fuel + 1, k, attempt =>
    match fetch k with
    | .ok => (.completed, [])
    | .maintenance => (.maintenanceRaised, [])
    | .httpError code =>
      if code = 403 ∨ code = 404 then (.skipped, [])
      else if (code = 429 ∨ code = 500 ∨ code = 502 ∨ code = 503 ∨ code = 504) ∧
          attempt < maxRetries then
        let backoff := baseBackoff * 2 ^ attempt
        let rest := process_player_run fetch maxRetries baseBackoff fuel (k + 1) attempt
        (rest.1, backoff :: rest.2)
      else (.skipped, [])
    | .netError =>
      if attempt < maxRetries then
        let backoff := baseBackoff * 2 ^ attempt
        let rest := process_player_run fetch maxRetries baseBackoff fuel (k + 1) attempt
        (rest.1, backoff :: rest.2)
      else (.skipped, [])
    | .otherError => (.skipped, [])

/-- C4 (code behaviour at the failing input): with `MAX_RETRIES = 5` and
`BASE_BACKOFF = 1.0` (settings.py) and a fetch that fails with HTTP 429 on
every attempt, the loop is still retrying after any number of iterations —
`attempt` never advances, so the `attempt < MAX_RETRIES` guard never
trips — and every backoff sleep equals the constant
`BASE_BACKOFF * 2 ** 0 = 1.0` rather than growing. -/
theorem process_player_unbounded_constant_backoff :
    ∀ fuel k : Nat,
      process_player_run (fun _ => .httpError 429) 5 1 fuel k 0 =
        (.fuelExhausted, List.replicate fuel 1) := by
  intro fuel
  induction fuel with
  | zero => intro k; rfl
  | succ n ih =>
    intro k
    simp only [process_player_run, List.replicate]
    rw [if_neg (by decide), if_pos (by decide)]
    rw [ih (k + 1)]
    norm_num

/-! ### Maintenance detection (`api_client.py` lines 94-149)

`_check_maintenance` tests `isinstance(response, list)` and
`response[0].get("reason") == "inMaintenance"`.  `_request` calls
`resp.raise_for_status()` and then `self._check_maintenance(resp)` —
passing the `httpx.Response` object itself, not `resp.json()`. -/

/-- A JSON payload, with just enough structure for the sentinel check: a
list of flat objects, or anything else. -/
inductive ApiPayload where
  | list (items : List (List (String × String)))
  | other
deriving DecidableEq

/-- A Python value as seen by `_check_maintenance`: either an
`httpx.Response` object or a parsed JSON payload. -/
inductive PyValue where
  | response (status : Nat) (body : ApiPayload)
  | payload (p : ApiPayload)
deriving DecidableEq

/-- `_check_maintenance`: raises `ClashRoyaleMaintenanceError` iff the
value is a non-empty Python list whose first element's `"reason"` field is
`"inMaintenance"`.  An `httpx.Response` object is not a list, so it never
triggers the check. -/
def check_maintenance (v : PyValue) : Except String Unit :=
  match v with
  | .payload (.list (first :: _)) =>
    if first.lookup "reason" = some "inMaintenance" then
      .error "Clash Royale API is in maintenance mode. Try again later."
    else .ok ()
  | _ => .ok ()

/-- `_request`: raise for a 4xx/5xx status, run the maintenance check on
the response *object* (as the source does), then return the parsed JSON
body. -/
def request (status : Nat) (body : ApiPayload) :
    Except (Nat ⊕ String) ApiPayload :=
  if 400 ≤ status then .error (.inl status)
  else
    match check_maintenance (.response status body) with
    | .error e => .error (.inr e)
    | .ok _ => .ok body

/-- C5 (code behaviour at the failing input): when the upstream responds
200 with the maintenance sentinel payload `[{"reason": "inMaintenance"}]`,
`_request` returns the sentinel as ordinary data and raises no maintenance
error — because the check is applied to the response object, which is never
a list — although `_check_maintenance` applied to the parsed body (as its
docstring describes) would raise the distinguished error.  Consequently no
`ClashRoyaleMaintenanceError` ever reaches `process_player` or
`run_players_cycle`, and the batch-cancelling handler is dead code. -/
theorem request_misses_maintenance_sentinel :
    request 200 (.list [[("reason", "inMaintenance")]]) =
      .ok (.list [[("reason", "inMaintenance")]]) ∧
    check_maintenance (.payload (.list [[("reason", "inMaintenance")]])) =
      .error "Clash Royale API is in maintenance mode. Try again later." := by
  constructor <;> rfl

/-! ### Cached statistics read path (`players_details.py` lines 122-181)

`deck_percentage_stats` wraps everything in one `try`: the Redis read
(`get_redis_json`, which propagates connection and `json.loads` failures),
the Mongo recompute and the cache write-back.  `ParamsRequestError` maps to
its own status code; every other exception — including a cache read
failure — is caught by the blanket `except Exception` and returned as
HTTP 500. -/

/-- A cache read failure (`get_redis_json` raises on connectivity or
deserialization errors; redis_connection.py lines 46-59 suppress
neither). -/
inductive CacheErr where
  | connection
  | deserialization
deriving DecidableEq

/-- What the endpoint returns to the caller. -/
inductive EndpointResult (α : Type) where
  | ok (val : α)
  | httpError (code : Nat)
deriving DecidableEq

/-- The `deck_percentage_stats` endpoint's control flow, with the request
validation outcome, the cache read outcome (`none` = miss) and the Mongo
recompute outcome as inputs.  The `if not decks: 404` branch is never taken
because `get_decks_win_percentage` returns a non-empty dict, which is
truthy. -/
def deck_percentage_stats (validation : Except Nat Unit)
    (cacheRead : Except CacheErr (Option DecksResult))
    (compute : Except String DecksResult) : EndpointResult DecksResult :=
  match validation with
  | .error code => .httpError code
  | .ok _ =>
    match cacheRead with
    | .error _ => .httpError 500
    | .ok (some cached) => .ok cached
    | .ok none =>
      match compute with
      | .error _ => .httpError 500
      | .ok decks => .ok decks

/-- C8 (counterexample): a cache read failure is *not* treated as a miss —
with a valid request, a failing cache read and a recompute that would
succeed with 3 battles, the endpoint returns HTTP 500 to the caller instead
of the recomputed result. -/
theorem deck_percentage_stats_cache_error_counterexample :
    deck_percentage_stats (.ok ()) (.error .connection) (.ok ⟨3, []⟩) =
      .httpError 500 ∧
    deck_percentage_stats (.ok ()) (.error .connection) (.ok ⟨3, []⟩) ≠
      .ok ⟨3, []⟩ := by
  constructor
  · rfl
  · intro h
    exact absurd h (by decide)

/-- C8 (amended): only a cache *miss* (no entry) falls through to recompute
from Mongo; a cache read failure is caught by the endpoint's blanket
exception handler and surfaces to the caller as HTTP 500, without
recomputing. -/
theorem deck_percentage_stats_miss_vs_error (e : CacheErr) (d : DecksResult) :
    deck_percentage_stats (.ok ()) (.error e) (.ok d) = .httpError 500 ∧
    deck_percentage_stats (.ok ()) (.ok none) (.ok d) = .ok d := by
  exact ⟨rfl, rfl⟩

end CRA
